import Mathlib

/-!
Verification of the freqtrade `arguments.py` module: the `TimeRange`
mini-language resolver (`Arguments.parse_timerange`), the positive-integer
validator (`Arguments.check_int_positive`), the config-path default
substitution in `Arguments.parse_args`, and the caching behaviour of
`Arguments.get_parsed_arg`.

Strings are modelled as `List Char`; the regex class `\d` is modelled as
ASCII digits (`Char.isDigit`), which coincides with Python on ASCII input.
-/

namespace Freqtrade

/-- Kind tag of a timerange side: the Python code uses the string literals
`'date'`, `'line'` and `'index'`; absence (`None`) is modelled by `Option`. -/
inductive SType where
  | date
  | line
  | index
  deriving DecidableEq, Repr

/-- Embedding of the `TimeRange` NamedTuple of `arguments.py`:
`starttype`/`stoptype` say whether the corresponding value is used, and
`startts`/`stopts` default to 0. -/
structure TimeRange where
  starttype : Option SType
  stoptype : Option SType
  startts : Int
  stopts : Int
  deriving DecidableEq, Repr

/-- Errors the resolver can raise: `noRuleMatched` models the
`Exception('Incorrect syntax for timerange "%s"')` carrying the offending
text; `arrowError` models a `ParserError`/`ValueError` escaping from
`arrow.get(s, 'YYYYMMDD')` on digits that do not form a calendar date;
`intError` models a `ValueError` escaping from `int()`. -/
inductive TimerangeError where
  | noRuleMatched (text : List Char)
  | arrowError
  | intError
  deriving DecidableEq, Repr

/-- Numeric value of a digit string, most significant digit first
(the value `int()` computes on a plain digit string). -/
def natOfDigits (ds : List Char) : Nat :=
  ds.foldl (fun acc c => 10 * acc + (c.toNat - '0'.toNat)) 0

/-- Python's `int()` on a string, restricted to the core grammar of an
optional sign followed by decimal digits (whitespace and underscore
separators are not modelled; no call site in this module uses them).
`none` models a raised `ValueError`. -/
def pyInt (s : List Char) : Option Int :=
  match s with
  | [] => none
  | c :: rest =>
    if c = '-' then
      if rest ≠ [] ∧ rest.all Char.isDigit = true then
        some (-(natOfDigits rest : Int))
      else none
    else if c = '+' then
      if rest ≠ [] ∧ rest.all Char.isDigit = true then
        some ((natOfDigits rest : Int))
      else none
    else
      if s.all Char.isDigit = true then some ((natOfDigits s : Int)) else none

/-- Leap-year test of the proleptic Gregorian calendar (as used by
Python's `datetime`, which backs `arrow`). -/
def isLeap (y : Nat) : Bool :=
  (y % 4 = 0 && y % 100 ≠ 0) || y % 400 = 0

/-- Number of days in a month of the proleptic Gregorian calendar. -/
def daysInMonth (y m : Nat) : Nat :=
  if m = 2 then (if isLeap y then 29 else 28)
  else if m = 4 ∨ m = 6 ∨ m = 9 ∨ m = 11 then 30
  else 31

/-- Validity of a calendar date as accepted by `datetime`/`arrow`
(year at least 1; with 4-digit years the upper bound 9999 is automatic). -/
def validDate (y m d : Nat) : Bool :=
  1 ≤ y && 1 ≤ m && m ≤ 12 && 1 ≤ d && d ≤ daysInMonth y m

/-- Epoch seconds at 00:00:00 UTC of a Gregorian date, via the standard
era/day-of-era civil-calendar computation (the value
`arrow.get(s, 'YYYYMMDD').timestamp` returns). -/
def epochOfCivil (y m d : Nat) : Int :=
  let yAdj : Nat := if m ≤ 2 then y - 1 else y
  let era : Nat := yAdj / 400
  let yoe : Nat := yAdj % 400
  let mp : Nat := if 2 < m then m - 3 else m + 9
  let doy : Nat := (153 * mp + 2) / 5 + d - 1
  let doe : Nat := yoe * 365 + yoe / 4 - yoe / 100 + doy
  86400 * ((era : Int) * 146097 + (doe : Int) - 719468)

/-- The year, month and day fields read from an 8-character `YYYYMMDD`
digit string. -/
def ymdOf (ds : List Char) : Nat × Nat × Nat :=
  (natOfDigits (ds.take 4), natOfDigits ((ds.drop 4).take 2), natOfDigits (ds.drop 6))

/-- Embedding of `arrow.get(s, 'YYYYMMDD').timestamp`: parse the 8 digits
as a calendar date and return epoch seconds at start of that UTC day, or
raise on an invalid date. -/
def arrowGetYYYYMMDD (s : List Char) : Except TimerangeError Int :=
  let y := (ymdOf s).1
  let m := (ymdOf s).2.1
  let d := (ymdOf s).2.2
  if validDate y m d then .ok (epochOfCivil y m d) else .error .arrowError

/-- Matcher for `^-(\d{n})$` (rules 1 and 4 of the timerange grammar):
a dash followed by exactly `n` digits; one group, the digits. -/
def matchDashDigits (n : Nat) (cs : List Char) : Option (List (List Char)) :=
  match cs with
  | c :: rest =>
    if c = '-' ∧ rest.length = n ∧ rest.all Char.isDigit = true then some [rest] else none
  | [] => none

/-- Matcher for `^(\d{n})-$` (rules 2 and 5): exactly `n` digits then a
dash; one group, the digits. -/
def matchDigitsDash (n : Nat) (cs : List Char) : Option (List (List Char)) :=
  match cs.span Char.isDigit with
  | (ds, rest) => if rest = ['-'] ∧ ds.length = n then some [ds] else none

/-- Matcher for `^(\d{n})-(\d{n})$` (rules 3 and 6): `n` digits, a dash,
`n` digits; two groups. -/
def matchDigitsDashDigits (n : Nat) (cs : List Char) : Option (List (List Char)) :=
  match cs.span Char.isDigit with
  | (ds1, c :: rest2) =>
    if c = '-' ∧ ds1.length = n ∧ rest2.length = n ∧ rest2.all Char.isDigit = true then
      some [ds1, rest2]
    else none
  | (_, []) => none

/-- Matcher for `^(-\d+)$` (rule 7): a dash followed by one or more
digits; one group, the whole match sign included. -/
def matchNeg (cs : List Char) : Option (List (List Char)) :=
  match cs with
  | c :: rest =>
    if c = '-' ∧ rest ≠ [] ∧ rest.all Char.isDigit = true then some [c :: rest] else none
  | [] => none

/-- Matcher for `^(\d+)-$` (rule 8): one or more digits then a dash. -/
def matchNumDash (cs : List Char) : Option (List (List Char)) :=
  match cs.span Char.isDigit with
  | (ds, rest) => if rest = ['-'] ∧ ds ≠ [] then some [ds] else none

/-- Matcher for `^(\d+)-(\d+)$` (rule 9): digits, a dash, digits. The
greedy `\d+` is forced to be the maximal digit run before the dash. -/
def matchNumDashNum (cs : List Char) : Option (List (List Char)) :=
  match cs.span Char.isDigit with
  | (ds1, c :: rest2) =>
    if c = '-' ∧ ds1 ≠ [] ∧ rest2 ≠ [] ∧ rest2.all Char.isDigit = true then
      some [ds1, rest2]
    else none
  | (_, []) => none

/-- The ordered `syntax` table of `parse_timerange`: each entry pairs a
regex matcher with the `(starttype, stoptype)` outcome. -/
def ruleTable :
    List ((List Char → Option (List (List Char))) × (Option SType × Option SType)) :=
  [(matchDashDigits 8, (none, some .date)),
   (matchDigitsDash 8, (some .date, none)),
   (matchDigitsDashDigits 8, (some .date, some .date)),
   (matchDashDigits 10, (none, some .date)),
   (matchDigitsDash 10, (some .date, none)),
   (matchDigitsDashDigits 10, (some .date, some .date)),
   (matchNeg, (none, some .line)),
   (matchNumDash, (some .line, none)),
   (matchNumDashNum, (some .index, some .index))]

/-- The `for rex, stype in syntax` loop: try each matcher in order and
return the first match's outcome and captured groups. -/
def findMatch
    (rules : List ((List Char → Option (List (List Char))) × (Option SType × Option SType)))
    (cs : List Char) : Option ((Option SType × Option SType) × List (List Char)) :=
  match rules with
  | [] => none
  | (rex, st) :: rest =>
    match rex cs with
    | some gs => some (st, gs)
    | none => findMatch rest cs

/-- Conversion of one captured group: `arrow.get(s, 'YYYYMMDD').timestamp`
when the side's kind is `'date'` and the group has exactly 8 characters,
otherwise `int(s)`. -/
def sideValue (k : SType) (s : List Char) : Except TimerangeError Int :=
  if k = .date ∧ s.length = 8 then arrowGetYYYYMMDD s
  else
    match pyInt s with
    | some n => .ok n
    | none => .error .intError

/-- The matched branch of `parse_timerange`: walk the groups with the
`index` counter (0, then 1 after a consumed start side), converting each
present side, and build the `TimeRange`. -/
def convertMatch (st : Option SType × Option SType) (rvals : List (List Char)) :
    Except TimerangeError TimeRange :=
  match st with
  | (some k1, some k2) =>
    match sideValue k1 (rvals.getD 0 []) with
    | .error e => .error e
    | .ok v1 =>
      match sideValue k2 (rvals.getD 1 []) with
      | .error e => .error e
      | .ok v2 => .ok ⟨some k1, some k2, v1, v2⟩
  | (some k1, none) =>
    match sideValue k1 (rvals.getD 0 []) with
    | .error e => .error e
    | .ok v1 => .ok ⟨some k1, none, v1, 0⟩
  | (none, some k2) =>
    match sideValue k2 (rvals.getD 0 []) with
    | .error e => .error e
    | .ok v2 => .ok ⟨none, some k2, 0, v2⟩
  | (none, none) => .ok ⟨none, none, 0, 0⟩

/-- Embedding of `Arguments.parse_timerange`: `None` yields the
unrestricted range, otherwise the first matching rule of the ordered
table decides kinds and values, and no match raises. -/
def parse_timerange (text : Option (List Char)) : Except TimerangeError TimeRange :=
  match text with
  | none => .ok ⟨none, none, 0, 0⟩
  | some cs =>
    match findMatch ruleTable cs with
    | some (st, gs) => convertMatch st gs
    | none => .error (.noRuleMatched cs)

deriving instance DecidableEq for Except

/-- Embedding of `Arguments.check_int_positive`: `int(value)` followed by
the positivity check; both an unparsable value and a non-positive one end
in the `argparse.ArgumentTypeError` branch, modelled as an error carrying
the offending raw value. -/
def check_int_positive (value : List Char) : Except (List Char) Int :=
  match pyInt value with
  | none => .error value
  | some n => if n ≤ 0 then .error value else .ok n

/-- Modelled from the spec: the default configuration path
(`constants.DEFAULT_CONFIG`); the `constants` module is outside the
provided sources, and the spec fixes only that a single default config
path exists. -/
def DEFAULT_CONFIG : String := "config.json"

/-- The `argparse` behaviour of the append-cardinality `--config` option:
the destination starts as `None` and each supplied value is appended in
order, so after parsing the attribute is `None` exactly when the option
was never supplied (the python bug 16399 situation the code works
around). -/
def appendAction (vals : List String) : Option (List String) :=
  vals.foldl (fun acc v => some (acc.getD [] ++ [v])) none

/-- Embedding of `Arguments.parse_args` restricted to the `config`
destination: run the underlying parse over the supplied `--config` values
and substitute exactly one default path when the parsed value is `None`. -/
def parse_args (configValues : List String) : List String :=
  match appendAction configValues with
  | none => [DEFAULT_CONFIG]
  | some cs => cs

/-- State of one `Arguments` instance as `get_parsed_arg` sees it: the
stored raw argument list (its `--config` occurrences), the cached
`parsed_arg` (initially `None`), and counters recording how often
`_load_args` (schema construction) and `parse_args` ran. -/
structure ArgumentsState where
  args : List String
  parsed_arg : Option (List String)
  loadCount : Nat
  parseCount : Nat
  deriving DecidableEq, Repr

/-- `Arguments.__init__`: store the argument list and set `parsed_arg` to
`None`. -/
def mkArguments (args : List String) : ArgumentsState :=
  ⟨args, none, 0, 0⟩

/-- `Arguments.get_parsed_arg`: on a cache miss run `_load_args` and
`parse_args` and store the result; on a hit return the cached result with
the state unchanged. -/
def get_parsed_arg (st : ArgumentsState) : List String × ArgumentsState :=
  match st.parsed_arg with
  | none => (parse_args st.args, ⟨st.args, some (parse_args st.args), st.loadCount + 1, st.parseCount + 1⟩)
  | some r => (r, st)

/-!
Helper lemmas: evaluation of the matcher table on the three shaped inputs
(dash-then-digits, digits-then-dash, digits-dash-digits).
-/

theorem takeWhile_digits_dash (ds tl : List Char) (h : ds.all Char.isDigit = true) :
    (ds ++ '-' :: tl).takeWhile Char.isDigit = ds := by
  induction ds with
  | nil => simp [List.takeWhile_cons, show ('-').isDigit = false from rfl]
  | cons c t ih =>
    simp only [List.all_cons, Bool.and_eq_true] at h
    simp [List.takeWhile_cons, h.1, ih h.2]

theorem dropWhile_digits_dash (ds tl : List Char) (h : ds.all Char.isDigit = true) :
    (ds ++ '-' :: tl).dropWhile Char.isDigit = '-' :: tl := by
  induction ds with
  | nil => simp [List.dropWhile_cons, show ('-').isDigit = false from rfl]
  | cons c t ih =>
    simp only [List.all_cons, Bool.and_eq_true] at h
    simp [List.dropWhile_cons, h.1, ih h.2]

theorem digit_ne_dash {c : Char} (h : c.isDigit = true) : c ≠ '-' := by
  intro he
  subst he
  exact absurd h (by decide)

theorem findMatch_dash (ds : List Char) (h1 : ds ≠ []) (h2 : ds.all Char.isDigit = true) :
    findMatch ruleTable ('-' :: ds) =
      if ds.length = 8 then some ((none, some SType.date), [ds])
      else if ds.length = 10 then some ((none, some SType.date), [ds])
      else some ((none, some SType.line), ['-' :: ds]) := by
  have htake : ([] ++ '-' :: ds).takeWhile Char.isDigit = [] :=
    takeWhile_digits_dash [] ds (by simp)
  have hdrop : ([] ++ '-' :: ds).dropWhile Char.isDigit = '-' :: ds :=
    dropWhile_digits_dash [] ds (by simp)
  simp only [List.nil_append] at htake hdrop
  by_cases h8 : ds.length = 8
  · simp [findMatch, ruleTable, matchDashDigits, h2, h8]
  · by_cases h10 : ds.length = 10
    · simp [findMatch, ruleTable, matchDashDigits, matchDigitsDash, matchDigitsDashDigits,
        htake, hdrop, h1, h2, h8, h10]
    · simp [findMatch, ruleTable, matchDashDigits, matchDigitsDash, matchDigitsDashDigits,
        matchNeg, matchNumDash, matchNumDashNum, htake, hdrop, h1, h2, h8, h10]

theorem findMatch_digits_dash (ds : List Char) (h1 : ds ≠ []) (h2 : ds.all Char.isDigit = true) :
    findMatch ruleTable (ds ++ ['-']) =
      if ds.length = 8 then some ((some SType.date, none), [ds])
      else if ds.length = 10 then some ((some SType.date, none), [ds])
      else some ((some SType.line, none), [ds]) := by
  have htake : (ds ++ '-' :: []).takeWhile Char.isDigit = ds := takeWhile_digits_dash ds [] h2
  have hdrop : (ds ++ '-' :: []).dropWhile Char.isDigit = '-' :: [] := dropWhile_digits_dash ds [] h2
  obtain ⟨c, t, rfl⟩ : ∃ c t, ds = c :: t := by
    cases ds with
    | nil => exact absurd rfl h1
    | cons c t => exact ⟨c, t, rfl⟩
  simp only [List.cons_append] at htake hdrop
  have hc : c.isDigit = true := by
    simp only [List.all_cons, Bool.and_eq_true] at h2
    exact h2.1
  have hcd : c ≠ '-' := digit_ne_dash hc
  by_cases h8 : (c :: t).length = 8
  · simp [findMatch, ruleTable, matchDashDigits, matchDigitsDash, htake, hdrop, hcd, h8]
  · by_cases h10 : (c :: t).length = 10
    · simp [findMatch, ruleTable, matchDashDigits, matchDigitsDash, matchDigitsDashDigits,
        htake, hdrop, hcd, h8, h10]
    · simp only [List.length_cons] at h8 h10
      have ht7 : ¬t.length = 7 := by omega
      have ht9 : ¬t.length = 9 := by omega
      simp [findMatch, ruleTable, matchDashDigits, matchDigitsDash, matchDigitsDashDigits,
        matchNeg, matchNumDash, matchNumDashNum, htake, hdrop, hcd, ht7, ht9]

theorem findMatch_two_sides (ds1 ds2 : List Char) (h1 : ds1 ≠ [])
    (h2 : ds1.all Char.isDigit = true)
    (h3 : ds2 ≠ []) (h4 : ds2.all Char.isDigit = true) :
    findMatch ruleTable (ds1 ++ '-' :: ds2) =
      if ds1.length = 8 ∧ ds2.length = 8 then some ((some SType.date, some SType.date), [ds1, ds2])
      else if ds1.length = 10 ∧ ds2.length = 10 then
        some ((some SType.date, some SType.date), [ds1, ds2])
      else some ((some SType.index, some SType.index), [ds1, ds2]) := by
  have htake : (ds1 ++ '-' :: ds2).takeWhile Char.isDigit = ds1 := takeWhile_digits_dash ds1 ds2 h2
  have hdrop : (ds1 ++ '-' :: ds2).dropWhile Char.isDigit = '-' :: ds2 :=
    dropWhile_digits_dash ds1 ds2 h2
  obtain ⟨c, t, rfl⟩ : ∃ c t, ds1 = c :: t := by
    cases ds1 with
    | nil => exact absurd rfl h1
    | cons c t => exact ⟨c, t, rfl⟩
  simp only [List.cons_append] at htake hdrop
  have hc : c.isDigit = true := by
    simp only [List.all_cons, Bool.and_eq_true] at h2
    exact h2.1
  have hcd : c ≠ '-' := digit_ne_dash hc
  by_cases h8 : (c :: t).length = 8 ∧ ds2.length = 8
  · simp [findMatch, ruleTable, matchDashDigits, matchDigitsDash, matchDigitsDashDigits,
      htake, hdrop, hcd, h3, h4, h8.1, h8.2]
  · by_cases h10 : (c :: t).length = 10 ∧ ds2.length = 10
    · simp [findMatch, ruleTable, matchDashDigits, matchDigitsDash, matchDigitsDashDigits,
        htake, hdrop, hcd, h3, h4, h8, h10.1, h10.2]
    · simp only [List.length_cons] at h8 h10
      have ht8 : ¬(t.length = 7 ∧ ds2.length = 8) := by omega
      have ht10 : ¬(t.length = 9 ∧ ds2.length = 10) := by omega
      simp [findMatch, ruleTable, matchDashDigits, matchDigitsDash, matchDigitsDashDigits,
        matchNeg, matchNumDash, matchNumDashNum, htake, hdrop, hcd, h3, h4, ht8, ht10]


theorem digit_ne_plus {c : Char} (h : c.isDigit = true) : c ≠ '+' := by
  intro he
  subst he
  exact absurd h (by decide)

theorem pyInt_digits (ds : List Char) (h1 : ds ≠ []) (h2 : ds.all Char.isDigit = true) :
    pyInt ds = some ((natOfDigits ds : Int)) := by
  obtain ⟨c, t, rfl⟩ : ∃ c t, ds = c :: t := by
    cases ds with
    | nil => exact absurd rfl h1
    | cons c t => exact ⟨c, t, rfl⟩
  have hc : c.isDigit = true := by
    simp only [List.all_cons, Bool.and_eq_true] at h2
    exact h2.1
  simp [pyInt, digit_ne_dash hc, digit_ne_plus hc, h2]

theorem pyInt_neg_digits (ds : List Char) (h1 : ds ≠ []) (h2 : ds.all Char.isDigit = true) :
    pyInt ('-' :: ds) = some (-(natOfDigits ds : Int)) := by
  simp [pyInt, h1, h2]

theorem sideValue_date8 (s : List Char) (h : s.length = 8) :
    sideValue .date s = arrowGetYYYYMMDD s := by
  simp [sideValue, h]

theorem sideValue_date_notlen8 (s : List Char) (h : s.length ≠ 8) (h1 : s ≠ [])
    (h2 : s.all Char.isDigit = true) :
    sideValue .date s = .ok ((natOfDigits s : Int)) := by
  simp [sideValue, h, pyInt_digits s h1 h2]

theorem sideValue_nondate (k : SType) (hk : k ≠ .date) (s : List Char) (h1 : s ≠ [])
    (h2 : s.all Char.isDigit = true) :
    sideValue k s = .ok ((natOfDigits s : Int)) := by
  simp [sideValue, hk, pyInt_digits s h1 h2]

theorem sideValue_line_neg (s : List Char) (h1 : s ≠ []) (h2 : s.all Char.isDigit = true) :
    sideValue .line ('-' :: s) = .ok (-(natOfDigits s : Int)) := by
  simp [sideValue, pyInt_neg_digits s h1 h2]

theorem convertMatch_ok (st : Option SType × Option SType) (gs : List (List Char))
    (tr : TimeRange) (h : convertMatch st gs = .ok tr) :
    tr.starttype = st.1 ∧ tr.stoptype = st.2 ∧
      (st.1 = none → tr.startts = 0) ∧ (st.2 = none → tr.stopts = 0) := by
  obtain ⟨s1, s2⟩ := st
  cases s1 with
  | none =>
    cases s2 with
    | none =>
      simp [convertMatch] at h
      simp [← h]
    | some k2 =>
      simp only [convertMatch] at h
      cases hv : sideValue k2 (gs.getD 0 []) with
      | error e => rw [hv] at h; exact absurd h (by simp)
      | ok v => rw [hv] at h; simp at h; simp [← h]
  | some k1 =>
    cases s2 with
    | none =>
      simp only [convertMatch] at h
      cases hv : sideValue k1 (gs.getD 0 []) with
      | error e => rw [hv] at h; exact absurd h (by simp)
      | ok v => rw [hv] at h; simp at h; simp [← h]
    | some k2 =>
      simp only [convertMatch] at h
      cases hv1 : sideValue k1 (gs.getD 0 []) with
      | error e => rw [hv1] at h; exact absurd h (by simp)
      | ok v1 =>
        rw [hv1] at h
        cases hv2 : sideValue k2 (gs.getD 1 []) with
        | error e => rw [hv2] at h; exact absurd h (by simp)
        | ok v2 => rw [hv2] at h; simp at h; simp [← h]

theorem findMatch_mem_snd :
    ∀ (rules : List ((List Char → Option (List (List Char))) × (Option SType × Option SType)))
      (cs : List Char) (st : Option SType × Option SType) (gs : List (List Char)),
      findMatch rules cs = some (st, gs) → st ∈ rules.map Prod.snd := by
  intro rules
  induction rules with
  | nil => intro cs st gs h; simp [findMatch] at h
  | cons r rest ih =>
    intro cs st gs h
    obtain ⟨rex, st0⟩ := r
    simp only [findMatch] at h
    cases hm : rex cs with
    | some gs0 =>
      rw [hm] at h
      simp only [Option.some.injEq, Prod.mk.injEq] at h
      simp [← h.1]
    | none =>
      rw [hm] at h
      simp only [List.map_cons, List.mem_cons]
      exact Or.inr (ih cs st gs h)

example : parse_timerange (some "-100".data) = .ok ⟨none, some SType.line, 0, -100⟩ := by decide

/-- C5: absent (`None`) timerange text resolves to the unrestricted range
`TimeRange(none, none, 0, 0)`. -/
theorem absent_text_unrestricted :
    parse_timerange none = .ok ⟨none, none, 0, 0⟩ := rfl

/-- C4: an input of a dash followed by digits whose length is neither 8
nor 10 (rule 7) resolves to start kind `none`, stop kind `line`, start
value 0, and stop value the captured signed (negative) integer verbatim;
in particular `"-100"` resolves to `(none, line, 0, -100)`. -/
theorem negative_integer_form_line :
    (∀ ds : List Char, ds ≠ [] → ds.all Char.isDigit = true →
      ds.length ≠ 8 → ds.length ≠ 10 →
      parse_timerange (some ('-' :: ds)) =
        .ok ⟨none, some SType.line, 0, -(natOfDigits ds : Int)⟩)
    ∧ parse_timerange (some "-100".data) = .ok ⟨none, some SType.line, 0, -100⟩ := by
  constructor
  · intro ds h1 h2 h8 h10
    simp only [parse_timerange, findMatch_dash ds h1 h2, h8, h10, if_false]
    simp [convertMatch, sideValue_line_neg ds h1 h2]
  · decide

/-- Witness for C4 at the concrete input `"-42"`. -/
theorem negative_integer_form_line_witness :
    parse_timerange (some "-42".data) = .ok ⟨none, some SType.line, 0, -42⟩ := by
  have h := negative_integer_form_line.1 "42".data (by decide) (by decide) (by decide) (by decide)
  rw [show ('-' :: "42".data) = "-42".data from rfl] at h
  rw [h]
  decide

/-- C3: a 10-digit side of a matched form (rules 4 to 6) is taken
directly as epoch seconds, with no calendar conversion and no failure; in
particular `"1525132800-"` resolves to `(date, none, 1525132800, 0)`. -/
theorem ten_digit_sides_literal_epoch :
    (∀ ds : List Char, ds.length = 10 → ds.all Char.isDigit = true →
      parse_timerange (some ('-' :: ds)) =
        .ok ⟨none, some SType.date, 0, (natOfDigits ds : Int)⟩
      ∧ parse_timerange (some (ds ++ ['-'])) =
        .ok ⟨some SType.date, none, (natOfDigits ds : Int), 0⟩)
    ∧ (∀ ds1 ds2 : List Char, ds1.length = 10 → ds1.all Char.isDigit = true →
      ds2.length = 10 → ds2.all Char.isDigit = true →
      parse_timerange (some (ds1 ++ '-' :: ds2)) =
        .ok ⟨some SType.date, some SType.date, (natOfDigits ds1 : Int), (natOfDigits ds2 : Int)⟩)
    ∧ parse_timerange (some "1525132800-".data) =
        .ok ⟨some SType.date, none, 1525132800, 0⟩ := by
  refine ⟨?_, ?_, by decide⟩
  · intro ds hl h2
    have h1 : ds ≠ [] := by intro he; rw [he] at hl; simp at hl
    have h8 : ds.length ≠ 8 := by omega
    constructor
    · simp only [parse_timerange, findMatch_dash ds h1 h2, h8, hl, if_false, if_true]
      simp [convertMatch, sideValue_date_notlen8 ds h8 h1 h2]
    · simp only [parse_timerange, findMatch_digits_dash ds h1 h2, h8, hl, if_false, if_true]
      simp [convertMatch, sideValue_date_notlen8 ds h8 h1 h2]
  · intro ds1 ds2 hl1 h2 hl2 h4
    have h1 : ds1 ≠ [] := by intro he; rw [he] at hl1; simp at hl1
    have h3 : ds2 ≠ [] := by intro he; rw [he] at hl2; simp at hl2
    have h8 : ¬(ds1.length = 8 ∧ ds2.length = 8) := by omega
    have h81 : ds1.length ≠ 8 := by omega
    have h82 : ds2.length ≠ 8 := by omega
    simp only [parse_timerange, findMatch_two_sides ds1 ds2 h1 h2 h3 h4, h8, hl1, hl2,
      if_false, if_true, and_self]
    simp [convertMatch, sideValue_date_notlen8 ds1 h81 h1 h2, sideValue_date_notlen8 ds2 h82 h3 h4]

/-- Witness for C3 at the concrete input `"-1525132800"`. -/
theorem ten_digit_sides_literal_epoch_witness :
    parse_timerange (some "-1525132800".data) =
      .ok ⟨none, some SType.date, 0, 1525132800⟩ := by
  have h := (ten_digit_sides_literal_epoch.1 "1525132800".data (by decide) (by decide)).1
  rw [show ('-' :: "1525132800".data) = "-1525132800".data from rfl] at h
  rw [h]
  decide

/-- C6: a present input on which all nine rule matchers fail resolves to
the error carrying the offending text and never to a `TimeRange`; in
particular `"not-a-range"` fails. -/
theorem no_rule_match_fails :
    ∀ cs : List Char,
      matchDashDigits 8 cs = none → matchDigitsDash 8 cs = none →
      matchDigitsDashDigits 8 cs = none → matchDashDigits 10 cs = none →
      matchDigitsDash 10 cs = none → matchDigitsDashDigits 10 cs = none →
      matchNeg cs = none → matchNumDash cs = none → matchNumDashNum cs = none →
      parse_timerange (some cs) = .error (.noRuleMatched cs) := by
  intro cs m1 m2 m3 m4 m5 m6 m7 m8 m9
  have hfm : findMatch ruleTable cs = none := by
    simp [findMatch, ruleTable, m1, m2, m3, m4, m5, m6, m7, m8, m9]
  simp [parse_timerange, hfm]

/-- Witness for C6 at the concrete input `"not-a-range"`. -/
theorem no_rule_match_fails_witness :
    parse_timerange (some "not-a-range".data) =
      .error (.noRuleMatched "not-a-range".data) :=
  no_rule_match_fails "not-a-range".data (by decide) (by decide) (by decide) (by decide)
    (by decide) (by decide) (by decide) (by decide) (by decide)
/-- C1 counterexample: the input `"20180101-100"` parses successfully and
classifies its 8-digit side as `index` (rule 9), not as a date. -/
theorem mixed_length_sides_classified_index :
    parse_timerange (some "20180101-100".data) =
      .ok ⟨some SType.index, some SType.index, 20180101, 100⟩ := by decide

/-- C1 (amended): an 8- or 10-digit numeral side is always classified as
a date in the one-sided forms, and in the two-sided form exactly when the
two sides both have length 8 or both have length 10; a two-sided input
whose digit runs have any other pair of lengths is classified as
`(index, index)` even when one side has 8 or 10 digits. -/
theorem date_length_anchoring :
    (∀ ds : List Char, ds ≠ [] → ds.all Char.isDigit = true →
      ds.length = 8 ∨ ds.length = 10 →
      (findMatch ruleTable ('-' :: ds)).map Prod.fst = some (none, some SType.date)
      ∧ (findMatch ruleTable (ds ++ ['-'])).map Prod.fst = some (some SType.date, none))
    ∧ (∀ ds1 ds2 : List Char, ds1 ≠ [] → ds1.all Char.isDigit = true →
      ds2 ≠ [] → ds2.all Char.isDigit = true →
      (findMatch ruleTable (ds1 ++ '-' :: ds2)).map Prod.fst =
        if (ds1.length = 8 ∧ ds2.length = 8) ∨ (ds1.length = 10 ∧ ds2.length = 10)
        then some (some SType.date, some SType.date)
        else some (some SType.index, some SType.index)) := by
  constructor
  · intro ds h1 h2 hlen
    rw [findMatch_dash ds h1 h2, findMatch_digits_dash ds h1 h2]
    rcases hlen with h8 | h10
    · simp [h8]
    · simp [h10]
  · intro ds1 ds2 h1 h2 h3 h4
    rw [findMatch_two_sides ds1 ds2 h1 h2 h3 h4]
    by_cases h8 : ds1.length = 8 ∧ ds2.length = 8
    · simp [h8]
    · by_cases h10 : ds1.length = 10 ∧ ds2.length = 10
      · simp [h8, h10]
      · simp [h8, h10]

/-- Witness for the amended C1: the 8-digit side of `"20180101-100"`
falls to the index rule, while the one-sided `"-20180101"` is a date. -/
theorem date_length_anchoring_witness :
    (findMatch ruleTable ("20180101".data ++ '-' :: "100".data)).map Prod.fst =
      some (some SType.index, some SType.index)
    ∧ (findMatch ruleTable ('-' :: "20180101".data)).map Prod.fst =
      some (none, some SType.date) := by
  constructor
  · rw [date_length_anchoring.2 "20180101".data "100".data (by decide) (by decide)
      (by decide) (by decide)]
    decide
  · exact (date_length_anchoring.1 "20180101".data (by decide) (by decide) (by decide)).1

/-- C2: an 8-digit side of a matched form (rules 1 to 3) is read as
`YYYYMMDD` and converted to epoch seconds at the start of that UTC day
(when the digits form a valid calendar date); in particular
`"20180101-20180201"` resolves to `(date, date, 1514764800, 1517443200)`,
the epochs of 2018-01-01T00:00:00Z and 2018-02-01T00:00:00Z. -/
theorem eight_digit_sides_are_utc_dates :
    (∀ ds : List Char, ds.length = 8 → ds.all Char.isDigit = true →
      validDate (ymdOf ds).1 (ymdOf ds).2.1 (ymdOf ds).2.2 = true →
      parse_timerange (some ('-' :: ds)) =
        .ok ⟨none, some SType.date, 0, epochOfCivil (ymdOf ds).1 (ymdOf ds).2.1 (ymdOf ds).2.2⟩
      ∧ parse_timerange (some (ds ++ ['-'])) =
        .ok ⟨some SType.date, none, epochOfCivil (ymdOf ds).1 (ymdOf ds).2.1 (ymdOf ds).2.2, 0⟩)
    ∧ (∀ ds1 ds2 : List Char, ds1.length = 8 → ds1.all Char.isDigit = true →
      ds2.length = 8 → ds2.all Char.isDigit = true →
      validDate (ymdOf ds1).1 (ymdOf ds1).2.1 (ymdOf ds1).2.2 = true →
      validDate (ymdOf ds2).1 (ymdOf ds2).2.1 (ymdOf ds2).2.2 = true →
      parse_timerange (some (ds1 ++ '-' :: ds2)) =
        .ok ⟨some SType.date, some SType.date,
          epochOfCivil (ymdOf ds1).1 (ymdOf ds1).2.1 (ymdOf ds1).2.2,
          epochOfCivil (ymdOf ds2).1 (ymdOf ds2).2.1 (ymdOf ds2).2.2⟩)
    ∧ parse_timerange (some "20180101-20180201".data) =
        .ok ⟨some SType.date, some SType.date, 1514764800, 1517443200⟩ := by
  refine ⟨?_, ?_, by decide⟩
  · intro ds hl h2 hv
    have h1 : ds ≠ [] := by intro he; rw [he] at hl; simp at hl
    constructor
    · simp only [parse_timerange, findMatch_dash ds h1 h2, hl, if_true]
      simp [convertMatch, sideValue_date8 ds hl, arrowGetYYYYMMDD, hv]
    · simp only [parse_timerange, findMatch_digits_dash ds h1 h2, hl, if_true]
      simp [convertMatch, sideValue_date8 ds hl, arrowGetYYYYMMDD, hv]
  · intro ds1 ds2 hl1 h2 hl2 h4 hv1 hv2
    have h1 : ds1 ≠ [] := by intro he; rw [he] at hl1; simp at hl1
    have h3 : ds2 ≠ [] := by intro he; rw [he] at hl2; simp at hl2
    simp only [parse_timerange, findMatch_two_sides ds1 ds2 h1 h2 h3 h4, hl1, hl2, and_self,
      if_true]
    simp [convertMatch, sideValue_date8 ds1 hl1, sideValue_date8 ds2 hl2,
      arrowGetYYYYMMDD, hv1, hv2]

/-- Witness for C2 at the concrete input `"-20180101"`. -/
theorem eight_digit_sides_are_utc_dates_witness :
    parse_timerange (some "-20180101".data) =
      .ok ⟨none, some SType.date, 0, 1514764800⟩ := by
  have h := (eight_digit_sides_are_utc_dates.1 "20180101".data (by decide) (by decide)
    (by decide)).1
  rw [show ('-' :: "20180101".data) = "-20180101".data from rfl] at h
  rw [h]
  decide
theorem appendAction_from (vs : List String) :
    ∀ acc : List String,
      vs.foldl (fun acc v => some (acc.getD [] ++ [v])) (some acc) = some (acc ++ vs) := by
  induction vs with
  | nil => intro acc; simp
  | cons v t ih =>
    intro acc
    simp only [List.foldl_cons, Option.getD_some]
    rw [ih (acc ++ [v])]
    simp

theorem appendAction_ne_nil (vs : List String) (h : vs ≠ []) : appendAction vs = some vs := by
  cases vs with
  | nil => exact absurd rfl h
  | cons v t =>
    simp only [appendAction, List.foldl_cons, Option.getD_none, List.nil_append]
    rw [appendAction_from t [v]]
    simp

/-- C7: with no `--config` value supplied the normalized result is exactly
the one default config path; with values supplied the result is exactly
those values in order, with no default injected. -/
theorem config_default_substitution :
    parse_args [] = [DEFAULT_CONFIG]
    ∧ (∀ vs : List String, vs ≠ [] → parse_args vs = vs) := by
  refine ⟨rfl, ?_⟩
  intro vs h
  simp [parse_args, appendAction_ne_nil vs h]

/-- Witness for C7: two supplied `--config` values survive in order. -/
theorem config_default_substitution_witness :
    parse_args ["conf-a.json", "conf-b.json"] = ["conf-a.json", "conf-b.json"] :=
  config_default_substitution.2 ["conf-a.json", "conf-b.json"] (by simp)

/-- C8: `check_int_positive` returns the parsed integer on a raw string
denoting a positive integer and errors on every raw value that does not
parse as an integer or is non-positive; in particular `"5"` gives 5 and
`"0"`, `"-3"`, `"abc"` all error. -/
theorem check_int_positive_spec :
    check_int_positive "5".data = .ok 5
    ∧ check_int_positive "0".data = .error "0".data
    ∧ check_int_positive "-3".data = .error "-3".data
    ∧ check_int_positive "abc".data = .error "abc".data
    ∧ (∀ (s : List Char) (n : Int), pyInt s = some n → 0 < n →
        check_int_positive s = .ok n)
    ∧ (∀ s : List Char, pyInt s = none → check_int_positive s = .error s)
    ∧ (∀ (s : List Char) (n : Int), pyInt s = some n → n ≤ 0 →
        check_int_positive s = .error s) := by
  refine ⟨by decide, by decide, by decide, by decide, ?_, ?_, ?_⟩
  · intro s n h hp
    have hnle : ¬n ≤ 0 := by omega
    simp [check_int_positive, h, hnle]
  · intro s h
    simp [check_int_positive, h]
  · intro s n h hle
    simp [check_int_positive, h, hle]

/-- Witness for C8: the general positive clause applied at `"7"`. -/
theorem check_int_positive_spec_witness :
    check_int_positive "7".data = .ok 7 :=
  check_int_positive_spec.2.2.2.2.1 "7".data 7 (by decide) (by decide)

/-- C9: every `TimeRange` the resolver returns carries one of the fixed
kind pairs of the grammar table (or the `(none, none)` pair of absent
input), and a `none` kind forces the corresponding value to be 0. -/
theorem timerange_kind_invariant :
    ∀ (text : Option (List Char)) (tr : TimeRange), parse_timerange text = .ok tr →
      ((tr.starttype, tr.stoptype) ∈
          [((none : Option SType), some SType.date), (some SType.date, none),
            (some SType.date, some SType.date), (none, some SType.line),
            (some SType.line, none), (some SType.index, some SType.index)]
        ∨ (text = none ∧ tr = ⟨none, none, 0, 0⟩))
      ∧ (tr.starttype = none → tr.startts = 0)
      ∧ (tr.stoptype = none → tr.stopts = 0) := by
  intro text tr h
  cases text with
  | none =>
    simp only [parse_timerange, Except.ok.injEq] at h
    subst h
    simp
  | some cs =>
    simp only [parse_timerange] at h
    cases hfm : findMatch ruleTable cs with
    | none => rw [hfm] at h; exact absurd h (by simp)
    | some p =>
      obtain ⟨st, gs⟩ := p
      rw [hfm] at h
      obtain ⟨he1, he2, he3, he4⟩ := convertMatch_ok st gs tr h
      have hmem := findMatch_mem_snd ruleTable cs st gs hfm
      refine ⟨Or.inl ?_, fun hn => he3 (he1 ▸ hn), fun hn => he4 (he2 ▸ hn)⟩
      have hpair : (tr.starttype, tr.stoptype) = st := by
        rw [he1, he2]
      rw [hpair]
      simp only [ruleTable, List.map_cons, List.map_nil, List.mem_cons,
        List.not_mem_nil, or_false] at hmem
      rcases hmem with h' | h' | h' | h' | h' | h' | h' | h' | h' <;> simp [h']
/-- Witness for C9 at absent input. -/
theorem timerange_kind_invariant_witness :
    (((TimeRange.mk none none 0 0).starttype, (TimeRange.mk none none 0 0).stoptype) ∈
        [((none : Option SType), some SType.date), (some SType.date, none),
          (some SType.date, some SType.date), (none, some SType.line),
          (some SType.line, none), (some SType.index, some SType.index)]
      ∨ ((none : Option (List Char)) = none ∧ TimeRange.mk none none 0 0 = ⟨none, none, 0, 0⟩))
    ∧ ((TimeRange.mk none none 0 0).starttype = none → (TimeRange.mk none none 0 0).startts = 0)
    ∧ ((TimeRange.mk none none 0 0).stoptype = none → (TimeRange.mk none none 0 0).stopts = 0) :=
  timerange_kind_invariant none ⟨none, none, 0, 0⟩ rfl

/-- C10: `get_parsed_arg` caches: a second call returns the same result
and leaves the state unchanged, and after the first call on a fresh
instance the schema construction and the underlying parse have each run
exactly once. -/
theorem get_parsed_arg_idempotent_cached :
    (∀ st : ArgumentsState,
      get_parsed_arg (get_parsed_arg st).2 = ((get_parsed_arg st).1, (get_parsed_arg st).2))
    ∧ (∀ args : List String,
      (get_parsed_arg (mkArguments args)).2.parseCount = 1
      ∧ (get_parsed_arg (mkArguments args)).2.loadCount = 1) := by
  constructor
  · intro st
    cases h : st.parsed_arg with
    | none => simp [get_parsed_arg, h]
    | some r => simp [get_parsed_arg, h]
  · intro args
    simp [get_parsed_arg, mkArguments]
end Freqtrade
